import Mathlib

/-!
Verification development for the mineru-tianshu orchestration core.

The definitions below are shallow embeddings of the Python sources:
  backend/api_server.py          (image rewriting, task endpoints, file serving)
  backend/utils/pdf_utils.py     (PDF chunking)
  backend/paddleocr_vl_vllm/engine.py (singleton engine, markdown merge)

Strings are modelled by Lean `String` (a list of characters, matching
Python's code-point strings).  Python string primitives used by the code
are re-implemented structurally on the character list so that every
definition is executable by kernel reduction.  Filesystem and object-store
interaction is modelled by explicit read oracles plus an `Effect` trace for
mutations; exceptions are modelled by `Except` or by oracle flags at the
exact program points where the source has a `try`/`except`.
-/

namespace MT

/-! ### Python string primitives (structural re-implementations) -/

/-- Python `str.split(sep)` for a single-character separator
    (also Lean's `String.splitOn` semantics): `""` splits to `[""]`. -/
def splitOnChar (sep : Char) : List Char → List (List Char)
  | [] => [[]]
  | c :: rest =>
    let r := splitOnChar sep rest
    if c = sep then [] :: r
    else
      match r with
      | [] => [[c]]
      | h :: t => (c :: h) :: t

/-- Python `str.startswith(pre)`. -/
def pyStartsWith (s pre : String) : Bool :=
  pre.data.isPrefixOf s.data

/-- Python `s[n:]` (slice from character index `n`). -/
def pyDrop (s : String) (n : Nat) : String :=
  ⟨s.data.drop n⟩

/-- Python `len(s)` (in characters). -/
def pyLen (s : String) : Nat :=
  s.data.length

/-- Python `s.replace("\\", "/")` (the only `replace` the source uses:
    single-character pattern and replacement). -/
def replaceBackslash (s : String) : String :=
  ⟨s.data.map (fun c => if c = '\x5c' then '/' else c)⟩

/-- `pat` occurs as a contiguous sublist of the argument. -/
def hasSublist (pat : List Char) : List Char → Bool
  | [] => pat.isEmpty
  | c :: rest => pat.isPrefixOf (c :: rest) || hasSublist pat rest

/-- Python `pat in s` (substring containment). -/
def containsStr (s pat : String) : Bool :=
  hasSublist pat.data s.data

/-- Python `s.lstrip("/")`. -/
def lstripSlash (s : String) : String :=
  ⟨s.data.dropWhile (fun c => c = '/')⟩

/-- Python `int(s)` restricted to the decimal literals the source feeds it
    (an optional sign followed by digits); `none` models `ValueError`. -/
def parsePyInt (s : String) : Option Int :=
  match s.data with
  | [] => none
  | '-' :: ds =>
    if ds ≠ [] ∧ ds.all Char.isDigit then
      some (-(Int.ofNat (ds.foldl (fun a c => a * 10 + (c.toNat - 48)) 0)))
    else none
  | ds =>
    if ds.all Char.isDigit then
      some (Int.ofNat (ds.foldl (fun a c => a * 10 + (c.toNat - 48)) 0))
    else none

/-- `pathlib.Path(p).name`: last non-empty `/`-separated component. -/
def pathName (p : String) : String :=
  ⟨((splitOnChar '/' p.data).filter (fun c => c ≠ [])).getLastD []⟩

/-- Index of the last `.` in a character list, if any. -/
def lastDotIdx : List Char → Option Nat
  | [] => none
  | c :: rest =>
    match lastDotIdx rest with
    | some i => some (i + 1)
    | none => if c = '.' then some 0 else none

/-- `pathlib.Path(p).suffix`: extension of the final component, empty when the
    last dot is leading or trailing (mirrors `name[i:]` for `0 < i < len-1`). -/
def pathSuffix (p : String) : String :=
  let n := (pathName p).data
  match lastDotIdx n with
  | some i => if 0 < i ∧ i + 1 < n.length then ⟨n.drop i⟩ else ""
  | none => ""

/-! ### URL quoting (`urllib.parse.quote` with `safe="/"`, and `unquote`) -/

/-- Upper-case hex digit, as produced by `urllib.parse.quote`. -/
def hexDigitChar (n : Nat) : Char :=
  if n < 10 then Char.ofNat (48 + n) else Char.ofNat (55 + n)

/-- UTF-8 encoding of one code point. -/
def utf8Bytes (c : Char) : List Nat :=
  let n := c.toNat
  if n < 128 then [n]
  else if n < 2048 then [192 + n / 64, 128 + n % 64]
  else if n < 65536 then [224 + n / 4096, 128 + (n / 64) % 64, 128 + n % 64]
  else [240 + n / 262144, 128 + (n / 4096) % 64, 128 + (n / 64) % 64, 128 + n % 64]

/-- Bytes `quote(..., safe="/")` leaves as-is: unreserved characters plus `/`. -/
def quoteSafeByte (b : Nat) : Bool :=
  (65 ≤ b ∧ b ≤ 90) ∨ (97 ≤ b ∧ b ≤ 122) ∨ (48 ≤ b ∧ b ≤ 57) ∨
    b = 45 ∨ b = 46 ∨ b = 95 ∨ b = 126 ∨ b = 47

/-- Percent-encode one UTF-8 byte. -/
def quoteByte (b : Nat) : List Char :=
  if quoteSafeByte b then [Char.ofNat b]
  else ['%', hexDigitChar (b / 16), hexDigitChar (b % 16)]

/-- `urllib.parse.quote(s, safe="/")`. -/
def quote (s : String) : String :=
  ⟨(s.data.map (fun c => ((utf8Bytes c).map quoteByte).flatten)).flatten⟩

/-- Hex digit value for `unquote`. -/
def hexVal (c : Char) : Option Nat :=
  if '0' ≤ c ∧ c ≤ '9' then some (c.toNat - 48)
  else if 'A' ≤ c ∧ c ≤ 'F' then some (c.toNat - 55)
  else if 'a' ≤ c ∧ c ≤ 'f' then some (c.toNat - 87)
  else none

/-- `urllib.parse.unquote` on single-byte (ASCII) percent escapes. -/
def unquoteChars : List Char → List Char
  | [] => []
  | '%' :: a :: b :: rest =>
    match hexVal a, hexVal b with
    | some x, some y => Char.ofNat (16 * x + y) :: unquoteChars rest
    | _, _ => '%' :: unquoteChars (a :: b :: rest)
  | c :: rest => c :: unquoteChars rest

def unquote (s : String) : String :=
  ⟨unquoteChars s.data⟩

/-! ### POSIX path model (for `Path.resolve()` and `Path./`) -/

/-- Normalise `/`-separated components the way `Path.resolve()` does in the
    absence of symlinks: drop empty and `.` components, let `..` pop. -/
def resolveComps (comps : List (List Char)) : List (List Char) :=
  comps.foldl
    (fun acc c =>
      if c = [] ∨ c = ['.'] then acc
      else if c = ['.', '.'] then acc.dropLast
      else acc ++ [c])
    []

def joinSlash : List (List Char) → List Char
  | [] => []
  | [x] => x
  | x :: xs => x ++ '/' :: joinSlash xs

/-- `str(Path(p).resolve())` for an absolute `p` without symlinks. -/
def pathResolve (p : String) : String :=
  ⟨'/' :: joinSlash (resolveComps (splitOnChar '/' p.data))⟩

/-- `Path(a) / b`: an absolute right operand replaces the left one. -/
def pathJoin (a b : String) : String :=
  if pyStartsWith b "/" then b else a ++ "/" ++ b

/-- The spec's notion for claim C1: the resolved path `p` lies inside the
    resolved root (component-wise prefix).  Written from the spec sentence
    "resolve(output/p) escapes resolve(output)" to compare with the code's
    string-prefix check. -/
def resolvedWithin (p root : String) : Bool :=
  (resolveComps (splitOnChar '/' root.data)).isPrefixOf
    (resolveComps (splitOnChar '/' p.data))

/-! ### `GET /v1/files/output/{file_path}` (api_server.serve_output_file) -/

inductive ServeResult
  | forbidden (detail : String)
  | notFound (detail : String)
  | file (path : String)
deriving DecidableEq, Repr

/-- Embedding of `serve_output_file`: URL-decode, join under `OUTPUT_DIR`,
    resolve, then the source's security check
    `str(full_path).startswith(str(OUTPUT_DIR.resolve()))`, then existence
    checks, else serve the file. -/
def serve_output_file (outputDir : String) (fileExists isFile : String → Bool)
    (file_path : String) : ServeResult :=
  let decoded_path := unquote file_path
  let full_path := pathResolve (pathJoin outputDir decoded_path)
  if ¬ pyStartsWith full_path (pathResolve outputDir) then
    .forbidden "Access denied"
  else if ¬ fileExists full_path then .notFound "File not found"
  else if ¬ isFile full_path then .notFound "Not a file"
  else .file full_path

/-! ### `split_pdf_file` (utils/pdf_utils.py) -/

structure PdfChunk where
  path : String
  start_page : Nat
  end_page : Nat
  page_count : Nat
deriving DecidableEq, Repr

/-- Python `range(0, stop, step)` for `step ≥ 1` (the source never calls it
    with step 0, which would raise `ValueError`). -/
def pyRange (stop step : Nat) : List Nat :=
  if step = 0 then []
  else (List.range ((stop + step - 1) / step)).map (fun k => k * step)

/-- Embedding of `split_pdf_file`: the chunk records computed from the page
    count; `start_page`/`end_page` are 1-based as in the source. -/
def split_pdf_file (pdf_stem output_dir : String) (total_pages chunk_size : Nat) :
    List PdfChunk :=
  (pyRange total_pages chunk_size).map (fun i =>
    let start_page := i
    let end_page := min (i + chunk_size) total_pages
    { path := output_dir ++ "/" ++ pdf_stem ++ "_pages_" ++
        toString (start_page + 1) ++ "-" ++ toString end_page ++ ".pdf",
      start_page := start_page + 1,
      end_page := end_page,
      page_count := end_page - start_page })

/-! ### Markdown image rewriting (api_server.process_markdown_images) -/

/-- Mutating actions the API code can perform; pure reads are not recorded. -/
inductive Effect
  | fputObject (bucket object localPath : String)
  | writeText (path content : String)
  | unlink (path : String)
deriving DecidableEq, Repr

/-- The module-level `MINIO_CONFIG` dict. -/
structure MinioConfig where
  endpoint : String
  access_key : String
  secret_key : String
  secure : Bool
  bucket_name : String

/-- Read oracles and exception switches for the rewriting code.
    `fileExists` answers `full_image_path.exists()`; `uploadOk` tells whether
    `minio_client.fput_object` succeeds (its `except` falls through to the
    local-URL strategy); `uuidFor` resolves `uuid.uuid4()`; `urlGenRaises`
    models an exception inside the static-URL `try` block; `subRaises` models
    an exception escaping `re.sub` itself (caught at the function's outer
    `try`). -/
structure ImgEnv where
  fileExists : String → Bool
  uploadOk : String → Bool
  uuidFor : String → String
  urlGenRaises : Bool
  subRaises : Bool

inductive FmtType
  | markdown
  | html
deriving DecidableEq, Repr

/-- Embedding of the nested `process_image_path`: returns the new URL and
    format tag, or `none` where the source returns `(None, None)`, together
    with the object-store mutations performed. -/
def process_image_path (cfg : MinioConfig) (env : ImgEnv)
    (output_dir image_dir result_path : String) (upload_images : Bool)
    (image_path : String) : Option (String × FmtType) × List Effect :=
  let image_filename := pathName image_path
  let full_image_path := image_dir ++ "/" ++ image_filename
  if ¬ env.fileExists full_image_path then (none, [])
  else
    let uploaded : Option (String × FmtType) × List Effect :=
      if upload_images then
        if env.uploadOk full_image_path then
          let file_extension := pathSuffix full_image_path
          let new_filename := env.uuidFor full_image_path ++ file_extension
          let object_name := "images/" ++ new_filename
          let scheme := if cfg.secure then "https" else "http"
          let minio_url :=
            scheme ++ "://" ++ cfg.endpoint ++ "/" ++ cfg.bucket_name ++ "/" ++ object_name
          (some (minio_url, .html), [.fputObject cfg.bucket_name object_name full_image_path])
        else (none, [])
      else (none, [])
    match uploaded with
    | (some r, effs) => (some r, effs)
    | (none, effs) =>
      if env.urlGenRaises then (none, effs)
      else
        let output_dir_str := replaceBackslash output_dir
        let result_path_str := replaceBackslash result_path
        if pyStartsWith result_path_str output_dir_str then
          let relative_path := lstripSlash (pyDrop result_path_str (pyLen output_dir_str))
          let encoded_relative_path := quote relative_path
          let encoded_image_filename := quote image_filename
          (some ("/api/v1/files/output/" ++ encoded_relative_path ++ "/images/" ++
              encoded_image_filename, .markdown), effs)
        else
          let encoded_image_filename := quote image_filename
          (some ("/api/v1/files/output/images/" ++ encoded_image_filename, .markdown), effs)

/-- `replace_md_image`: rebuild `![alt](...)` with the new URL, or return the
    whole match (`match.group(0)`) unchanged when processing failed. -/
def replace_md_image (pip : String → Option (String × FmtType) × List Effect)
    (alt_text image_path : String) : String × List Effect :=
  match pip image_path with
  | (some (new_url, _), effs) => ("![" ++ alt_text ++ "](" ++ new_url ++ ")", effs)
  | (none, effs) => ("![" ++ alt_text ++ "](" ++ image_path ++ ")", effs)

/-- `replace_html_image`: rebuild the `<img ...>` tag around the new URL
    (note the single space the f-string prints after `<img`), or return
    `match.group(0)` unchanged when processing failed.  `ws` is the
    whitespace matched by `\s+`, `before_src`/`after_src` are groups 1 and 3.
    (The source also extracts an `alt` attribute, but only to pass it to
    `process_image_path` for logging; it does not affect the result.) -/
def replace_html_image (pip : String → Option (String × FmtType) × List Effect)
    (ws before_src image_path after_src : String) : String × List Effect :=
  match pip image_path with
  | (some (new_url, _), effs) =>
    ("<img " ++ before_src ++ "src=\"" ++ new_url ++ "\"" ++ after_src ++ ">", effs)
  | (none, effs) =>
    ("<img" ++ ws ++ before_src ++ "src=\"" ++ image_path ++ "\"" ++ after_src ++ ">", effs)

/-! #### The regex matchers

`re.sub` replaces the leftmost non-overlapping matches left to right.  The
two patterns are deterministic once a starting position is fixed (each
quantified class excludes its closing delimiter), except for the optional
group of the HTML pattern, which greedily binds the *last* `src="` before
the closing `>`; the matchers below implement exactly that. -/

/-- Split at the first occurrence of `c`: `s = pre ++ c :: post`. -/
def takeUntil (c : Char) : List Char → Option (List Char × List Char)
  | [] => none
  | x :: xs =>
    if x = c then some ([], xs)
    else (takeUntil c xs).map (fun pr => (x :: pr.1, pr.2))

theorem takeUntil_length {c : Char} :
    ∀ {s pre post : List Char}, takeUntil c s = some (pre, post) →
      post.length < s.length := by
  intro s
  induction s with
  | nil => intro pre post h; simp [takeUntil] at h
  | cons x xs ih =>
    intro pre post h
    simp only [takeUntil] at h
    split at h
    · simp only [Option.some.injEq, Prod.mk.injEq] at h
      obtain ⟨-, h2⟩ := h
      subst h2
      simp
    · cases hx : takeUntil c xs with
      | none => rw [hx] at h; simp at h
      | some pr =>
        rw [hx] at h
        simp only [Option.map_some', Option.some.injEq, Prod.mk.injEq] at h
        obtain ⟨-, h2⟩ := h
        subst h2
        have : pr.2.length < xs.length := ih (by rw [hx])
        simp only [List.length_cons]
        omega

/-- Match `!\[([^\]]*)\]\(([^)]+)\)` at the head of the input; returns
    `(alt, path, rest)`. -/
def matchMdImage (s : List Char) : Option (List Char × List Char × List Char) :=
  match s with
  | '!' :: '[' :: r0 =>
    (takeUntil ']' r0).bind (fun pr1 =>
      match pr1.2 with
      | '(' :: r2 =>
        (takeUntil ')' r2).bind (fun pr2 =>
          if pr2.1.isEmpty then none else some (pr1.1, pr2.1, pr2.2))
      | _ => none)
  | _ => none

theorem matchMdImage_length {s alt path rest : List Char}
    (h : matchMdImage s = some (alt, path, rest)) : rest.length < s.length := by
  unfold matchMdImage at h
  split at h
  next r0 =>
    rw [Option.bind_eq_some] at h
    obtain ⟨pr1, h1, h⟩ := h
    have l1 := takeUntil_length h1
    split at h
    next r2 heq =>
      rw [Option.bind_eq_some] at h
      obtain ⟨pr2, h2, h⟩ := h
      have l2 := takeUntil_length h2
      have e1 : pr1.2.length = r2.length + 1 := by rw [heq]; simp
      split at h
      · exact absurd h (by simp)
      · simp only [Option.some.injEq, Prod.mk.injEq] at h
        obtain ⟨-, -, h3⟩ := h
        subst h3
        simp only [List.length_cons]
        omega
    next => exact absurd h (by simp)
  next => exact absurd h (by simp)

/-- Python `\s` whitespace class (ASCII part). -/
def isPySpace (c : Char) : Bool :=
  c = ' ' ∨ c = '\t' ∨ c = '\n' ∨ c = '\r' ∨ c = '\x0b' ∨ c = '\x0c'

/-- All ways to split the input as `mid ++ "src=\"" ++ rest` with no `>` in
    `mid`, shortest `mid` first. -/
def srcSplits : List Char → List (List Char × List Char)
  | [] => []
  | c :: cs =>
    if c = '>' then []
    else
      let tail := (srcSplits cs).map (fun pr => (c :: pr.1, pr.2))
      if ['s', 'r', 'c', '=', '"'].isPrefixOf (c :: cs) then
        ([], (c :: cs).drop 5) :: tail
      else tail

theorem srcSplits_length :
    ∀ {s : List Char} {pr : List Char × List Char}, pr ∈ srcSplits s →
      pr.2.length < s.length := by
  intro s
  induction s with
  | nil => intro pr h; simp [srcSplits] at h
  | cons c cs ih =>
    intro pr h
    simp only [srcSplits] at h
    split at h
    · simp at h
    · split at h
      · rcases List.mem_cons.mp h with h1 | h1
        · subst h1
          simp only [List.length_cons, List.length_drop]
          omega
        · obtain ⟨pr0, hpr0, hmap⟩ := List.mem_map.mp h1
          have := ih hpr0
          subst hmap
          simp only [List.length_cons]
          omega
      · obtain ⟨pr0, hpr0, hmap⟩ := List.mem_map.mp h
        have := ih hpr0
        subst hmap
        simp only [List.length_cons]
        omega

/-- First `some` produced by `f` along the list. -/
def firstSome (f : α → Option β) : List α → Option β
  | [] => none
  | x :: xs =>
    match f x with
    | some v => some v
    | none => firstSome f xs

theorem firstSome_mem {f : α → Option β} :
    ∀ {l : List α} {v : β}, firstSome f l = some v → ∃ x ∈ l, f x = some v := by
  intro l
  induction l with
  | nil => intro v h; simp [firstSome] at h
  | cons x xs ih =>
    intro v h
    simp only [firstSome] at h
    cases hx : f x with
    | some w => simp [hx] at h; exact ⟨x, by simp, by simp [hx, h]⟩
    | none =>
      simp only [hx] at h
      obtain ⟨y, hy, hfy⟩ := ih h
      exact ⟨y, by simp [hy], hfy⟩

theorem takeWhile_length_le (p : Char → Bool) (l : List Char) :
    (l.takeWhile p).length ≤ l.length := by
  induction l with
  | nil => simp
  | cons a t ih =>
    simp only [List.takeWhile]
    split
    · simp only [List.length_cons]
      omega
    · simp

/-- Group 1 (`([^>]*\s+)?`) is either skipped or ends in whitespace. -/
def htmlMidOk (mid : List Char) : Bool :=
  match mid.getLast? with
  | none => true
  | some c => isPySpace c

/-- Complete one HTML candidate: group 2 is `[^"]+` up to the closing quote,
    group 3 is `[^>]*` up to the closing `>`. -/
def tryHtmlCand (ws : List Char) (cand : List Char × List Char) :
    Option (List Char × List Char × List Char × List Char × List Char) :=
  if htmlMidOk cand.1 then
    (takeUntil '"' cand.2).bind (fun pr1 =>
      if pr1.1.isEmpty then none
      else
        (takeUntil '>' pr1.2).bind (fun pr2 =>
          some (ws, cand.1, pr1.1, pr2.1, pr2.2)))
  else none

/-- Match `<img\s+([^>]*\s+)?src="([^"]+)"([^>]*)>` at the head of the
    input; returns `(ws, group1, group2, group3, rest)`.  Candidates are
    tried longest-`mid` first, mirroring the greedy optional group. -/
def matchHtmlImg (s : List Char) :
    Option (List Char × List Char × List Char × List Char × List Char) :=
  match s with
  | '<' :: 'i' :: 'm' :: 'g' :: s0 =>
    let ws := s0.takeWhile isPySpace
    if ws.isEmpty then none
    else
      let s1 := s0.drop ws.length
      firstSome (tryHtmlCand ws) (srcSplits s1).reverse
  | _ => none

theorem tryHtmlCand_length {ws : List Char} {cand : List Char × List Char}
    {ws' mid path g3 rest : List Char}
    (h : tryHtmlCand ws cand = some (ws', mid, path, g3, rest)) :
    rest.length < cand.2.length := by
  unfold tryHtmlCand at h
  split at h
  · rw [Option.bind_eq_some] at h
    obtain ⟨pr1, h1, h⟩ := h
    have l1 := takeUntil_length h1
    split at h
    · exact absurd h (by simp)
    · rw [Option.bind_eq_some] at h
      obtain ⟨pr2, h2, h⟩ := h
      have l2 := takeUntil_length h2
      simp only [Option.some.injEq, Prod.mk.injEq] at h
      obtain ⟨-, -, -, -, h5⟩ := h
      subst h5
      omega
  · exact absurd h (by simp)

theorem matchHtmlImg_length {s ws mid path g3 rest : List Char}
    (h : matchHtmlImg s = some (ws, mid, path, g3, rest)) :
    rest.length < s.length := by
  unfold matchHtmlImg at h
  split at h
  case _ s0 =>
    simp only at h
    split at h
    · exact absurd h (by simp)
    case _ hws =>
      obtain ⟨cand, hc, htc⟩ := firstSome_mem h
      have hlt := tryHtmlCand_length htc
      have hmem : cand ∈ srcSplits (s0.drop (s0.takeWhile isPySpace).length) :=
        List.mem_reverse.mp hc
      have hlt2 := srcSplits_length hmem
      have hws1 : 0 < (s0.takeWhile isPySpace).length := by
        cases hw : s0.takeWhile isPySpace with
        | nil => rw [hw] at hws; simp at hws
        | cons a l => simp [hw]
      have hle : (s0.takeWhile isPySpace).length ≤ s0.length :=
        takeWhile_length_le isPySpace s0
      have hdrop : (s0.drop (s0.takeWhile isPySpace).length).length < s0.length := by
        simp only [List.length_drop]
        omega
      simp only [List.length_cons]
      omega
  case _ => exact absurd h (by simp)

/-- `re.sub` for the Markdown image pattern: scan left to right, replace
    each match via `replace_md_image`, collecting effects. -/
def reSubMd (pip : String → Option (String × FmtType) × List Effect) :
    List Char → List Char × List Effect
  | [] => ([], [])
  | c :: rest =>
    match hm : matchMdImage (c :: rest) with
    | some (alt, path, after) =>
      let rep := replace_md_image pip ⟨alt⟩ ⟨path⟩
      let tl := reSubMd pip after
      (rep.1.data ++ tl.1, rep.2 ++ tl.2)
    | none =>
      let tl := reSubMd pip rest
      (c :: tl.1, tl.2)
termination_by s => s.length
decreasing_by
  · exact matchMdImage_length hm
  · simp

/-- `re.sub` for the HTML image pattern. -/
def reSubHtml (pip : String → Option (String × FmtType) × List Effect) :
    List Char → List Char × List Effect
  | [] => ([], [])
  | c :: rest =>
    match hm : matchHtmlImg (c :: rest) with
    | some (ws, mid, path, g3, after) =>
      let rep := replace_html_image pip ⟨ws⟩ ⟨mid⟩ ⟨path⟩ ⟨g3⟩
      let tl := reSubHtml pip after
      (rep.1.data ++ tl.1, rep.2 ++ tl.2)
    | none =>
      let tl := reSubHtml pip rest
      (c :: tl.1, tl.2)
termination_by s => s.length
decreasing_by
  · exact matchHtmlImg_length hm
  · simp

/-- Embedding of `process_markdown_images`: both substitution passes inside
    the outer `try`, whose `except` returns the input unchanged. -/
def process_markdown_images (cfg : MinioConfig) (env : ImgEnv) (output_dir : String)
    (md_content : String) (image_dir : String) (result_path : String)
    (upload_images : Bool) : String × List Effect :=
  if env.subRaises then (md_content, [])
  else
    let pip := process_image_path cfg env output_dir image_dir result_path upload_images
    let r1 := reSubMd pip md_content.data
    let r2 := reSubHtml pip r1.1
    (⟨r2.1⟩, r1.2 ++ r2.2)

/-! #### Match decomposition: a document splits into literal characters and
image references, and substitution acts on each reference independently. -/

inductive MdSeg
  | lit (c : Char)
  | ref (alt path : List Char)

inductive HtmlSeg
  | lit (c : Char)
  | tag (ws mid path g3 : List Char)

/-- The Markdown-pattern match structure of a document. -/
def mdParse : List Char → List MdSeg
  | [] => []
  | c :: rest =>
    match hm : matchMdImage (c :: rest) with
    | some (alt, path, after) => .ref alt path :: mdParse after
    | none => .lit c :: mdParse rest
termination_by s => s.length
decreasing_by
  · exact matchMdImage_length hm
  · simp

/-- The HTML-pattern match structure of a document. -/
def htmlParse : List Char → List HtmlSeg
  | [] => []
  | c :: rest =>
    match hm : matchHtmlImg (c :: rest) with
    | some (ws, mid, path, g3, after) => .tag ws mid path g3 :: htmlParse after
    | none => .lit c :: htmlParse rest
termination_by s => s.length
decreasing_by
  · exact matchHtmlImg_length hm
  · simp

/-- How substitution renders one Markdown segment. -/
def renderMdSeg (pip : String → Option (String × FmtType) × List Effect) :
    MdSeg → List Char
  | .lit c => [c]
  | .ref alt path => (replace_md_image pip ⟨alt⟩ ⟨path⟩).1.data

/-- How substitution renders one HTML segment. -/
def renderHtmlSeg (pip : String → Option (String × FmtType) × List Effect) :
    HtmlSeg → List Char
  | .lit c => [c]
  | .tag ws mid path g3 => (replace_html_image pip ⟨ws⟩ ⟨mid⟩ ⟨path⟩ ⟨g3⟩).1.data

theorem reSubMd_render (pip : String → Option (String × FmtType) × List Effect) :
    ∀ s : List Char, (reSubMd pip s).1 = ((mdParse s).map (renderMdSeg pip)).flatten := by
  have main : ∀ n : Nat, ∀ s : List Char, s.length ≤ n →
      (reSubMd pip s).1 = ((mdParse s).map (renderMdSeg pip)).flatten := by
    intro n
    induction n with
    | zero =>
      intro s hs
      have : s = [] := List.length_eq_zero.mp (Nat.le_zero.mp hs)
      subst this
      simp [reSubMd, mdParse]
    | succ n ih =>
      intro s hs
      match s with
      | [] => simp [reSubMd, mdParse]
      | c :: rest =>
        rw [reSubMd, mdParse]
        cases hm : matchMdImage (c :: rest) with
        | some v =>
          obtain ⟨alt, path, after⟩ := v
          simp only [hm]
          have hlt := matchMdImage_length hm
          have := ih after (by simp only [List.length_cons] at hs hlt; omega)
          simp [this, renderMdSeg]
        | none =>
          simp only [hm]
          have := ih rest (by simp at hs; omega)
          simp [this, renderMdSeg]
  intro s
  exact main s.length s le_rfl

theorem reSubHtml_render (pip : String → Option (String × FmtType) × List Effect) :
    ∀ s : List Char, (reSubHtml pip s).1 = ((htmlParse s).map (renderHtmlSeg pip)).flatten := by
  have main : ∀ n : Nat, ∀ s : List Char, s.length ≤ n →
      (reSubHtml pip s).1 = ((htmlParse s).map (renderHtmlSeg pip)).flatten := by
    intro n
    induction n with
    | zero =>
      intro s hs
      have : s = [] := List.length_eq_zero.mp (Nat.le_zero.mp hs)
      subst this
      simp [reSubHtml, htmlParse]
    | succ n ih =>
      intro s hs
      match s with
      | [] => simp [reSubHtml, htmlParse]
      | c :: rest =>
        rw [reSubHtml, htmlParse]
        cases hm : matchHtmlImg (c :: rest) with
        | some v =>
          obtain ⟨ws, mid, path, g3, after⟩ := v
          simp only [hm]
          have hlt := matchHtmlImg_length hm
          have := ih after (by simp only [List.length_cons] at hs hlt; omega)
          simp [this, renderHtmlSeg]
        | none =>
          simp only [hm]
          have := ih rest (by simp at hs; omega)
          simp [this, renderHtmlSeg]
  intro s
  exact main s.length s le_rfl

theorem reSubMd_effects (pip : String → Option (String × FmtType) × List Effect)
    (hp : ∀ p, (pip p).2 = []) :
    ∀ s : List Char, (reSubMd pip s).2 = [] := by
  have main : ∀ n : Nat, ∀ s : List Char, s.length ≤ n → (reSubMd pip s).2 = [] := by
    intro n
    induction n with
    | zero =>
      intro s hs
      have : s = [] := List.length_eq_zero.mp (Nat.le_zero.mp hs)
      subst this
      simp [reSubMd]
    | succ n ih =>
      intro s hs
      match s with
      | [] => simp [reSubMd]
      | c :: rest =>
        rw [reSubMd]
        cases hm : matchMdImage (c :: rest) with
        | some v =>
          obtain ⟨alt, path, after⟩ := v
          simp only [hm]
          have hlt := matchMdImage_length hm
          have ht := ih after (by simp only [List.length_cons] at hs hlt; omega)
          have hr : (replace_md_image pip ⟨alt⟩ ⟨path⟩).2 = [] := by
            unfold replace_md_image
            cases hp2 : pip ⟨path⟩ with
            | mk fst snd =>
              have := hp (⟨path⟩ : String)
              rw [hp2] at this
              cases fst <;> simp_all
          simp [ht, hr]
        | none =>
          simp only [hm]
          have := ih rest (by simp at hs; omega)
          simp [this]
  intro s
  exact main s.length s le_rfl

theorem reSubHtml_effects (pip : String → Option (String × FmtType) × List Effect)
    (hp : ∀ p, (pip p).2 = []) :
    ∀ s : List Char, (reSubHtml pip s).2 = [] := by
  have main : ∀ n : Nat, ∀ s : List Char, s.length ≤ n → (reSubHtml pip s).2 = [] := by
    intro n
    induction n with
    | zero =>
      intro s hs
      have : s = [] := List.length_eq_zero.mp (Nat.le_zero.mp hs)
      subst this
      simp [reSubHtml]
    | succ n ih =>
      intro s hs
      match s with
      | [] => simp [reSubHtml]
      | c :: rest =>
        rw [reSubHtml]
        cases hm : matchHtmlImg (c :: rest) with
        | some v =>
          obtain ⟨ws, mid, path, g3, after⟩ := v
          simp only [hm]
          have hlt := matchHtmlImg_length hm
          have ht := ih after (by simp only [List.length_cons] at hs hlt; omega)
          have hr : (replace_html_image pip ⟨ws⟩ ⟨mid⟩ ⟨path⟩ ⟨g3⟩).2 = [] := by
            unfold replace_html_image
            cases hp2 : pip ⟨path⟩ with
            | mk fst snd =>
              have := hp (⟨path⟩ : String)
              rw [hp2] at this
              cases fst <;> simp_all
          simp [ht, hr]
        | none =>
          simp only [hm]
          have := ih rest (by simp at hs; omega)
          simp [this]
  intro s
  exact main s.length s le_rfl

/-! ### Tasks, users, endpoints (api_server.py) -/

structure Task where
  status : String
  file_name : String
  file_path : String
  backend : String
  priority : Int
  error_message : Option String
  created_at : Option String
  started_at : Option String
  completed_at : Option String
  worker_id : Option String
  retry_count : Nat
  user_id : Option String
  result_path : Option String
deriving DecidableEq, Repr

inductive Permission
  | TASK_SUBMIT
  | TASK_VIEW_ALL
  | TASK_DELETE_ALL
  | QUEUE_VIEW
  | QUEUE_MANAGE
deriving DecidableEq, Repr

structure User where
  user_id : String
  username : String
  permissions : List Permission
deriving DecidableEq, Repr

def User.has_permission (u : User) (p : Permission) : Bool :=
  u.permissions.contains p

/-- `fastapi.HTTPException`. -/
structure HTTPEx where
  status : Nat
  detail : String
deriving DecidableEq, Repr

def errStatus : Except HTTPEx α → Option Nat
  | .error e => some e.status
  | .ok _ => none

/-! #### `DELETE /api/v1/tasks/{task_id}` (cancel_task) -/

structure CancelOk where
  success : Bool
  message : String
deriving DecidableEq, Repr

/-- Embedding of `cancel_task`: 404 when unknown, 403 for a foreign task
    without `TASK_DELETE_ALL`, transition to `cancelled` plus upload unlink
    when pending, HTTP 400 otherwise.  Returns the HTTP outcome, the task
    store after the call, and the filesystem mutations. -/
def cancel_task (db : String → Option Task) (fsExists : String → Bool)
    (task_id : String) (user : User) :
    Except HTTPEx CancelOk × (String → Option Task) × List Effect :=
  match db task_id with
  | none => (.error ⟨404, "Task not found"⟩, db, [])
  | some task =>
    if user.has_permission .TASK_DELETE_ALL = false ∧ task.user_id ≠ some user.user_id then
      (.error ⟨403, "Permission denied: You can only cancel your own tasks"⟩, db, [])
    else if task.status = "pending" then
      (.ok ⟨true, "Task cancelled successfully"⟩,
       fun i => if i = task_id then some { task with status := "cancelled" } else db i,
       if fsExists task.file_path then [.unlink task.file_path] else [])
    else
      (.error ⟨400, "Cannot cancel task in " ++ task.status ++ " status"⟩, db, [])

/-! #### `GET /api/v1/tasks/{task_id}` (get_task_status) -/

/-- One file found by `result_dir.rglob("*.md")`. -/
structure MdFile where
  parent : String
  name : String
  content : String
deriving DecidableEq, Repr

/-- One file found by `result_dir.rglob("*.json")`. -/
structure JsonFile where
  parentName : String
  name : String
  content : String
deriving DecidableEq, Repr

/-- On-disk state of one task's result directory, as the endpoint reads it.
    `imagesDirExists` answers `(md_file.parent / "images").exists()` per
    parent; `cacheAt` holds the content of `parent / "result_minio.md"` when
    that file exists; `cacheWriteOk` tells whether `write_text` succeeds
    (its `except` only logs); `readRaises` models an exception inside the
    content-reading `try` (caught: the response then carries no data). -/
structure ResultStore where
  dirExists : Bool
  mdFiles : List MdFile
  jsonFiles : List JsonFile
  imagesDirExists : String → Bool
  cacheAt : String → Option String
  cacheWriteOk : Bool
  readRaises : Bool

/-- The source's JSON filter: skip `page_N/` directories, accept
    `content.json`, `result.json` or `*_content_list.json`. -/
def jsonFilter (f : JsonFile) : Bool :=
  ¬ pyStartsWith f.parentName "page_" ∧
    (f.name = "content.json" ∨ f.name = "result.json" ∨
      containsStr f.name "_content_list.json")

/-- Main-Markdown selection: first `result.md`, else the first found file. -/
def chooseMd (files : List MdFile) : Option MdFile :=
  match files.find? (fun f => f.name = "result.md") with
  | some f => some f
  | none => files.head?

/-- The `data` object assembled for a completed task. -/
structure RespData where
  json_available : Bool := false
  markdown_file : Option String := none
  content : Option String := none
  images_uploaded : Option Bool := none
  has_images : Option Bool := none
  from_cache : Option Bool := none
  json_file : Option String := none
  json_content : Option String := none
  message : Option String := none
deriving DecidableEq, Repr

/-- The markdown block of the completed-task branch (source lines 429–486):
    cache hit, or read + rewrite + optional cache write. -/
def markdownPart (cfg : MinioConfig) (env : ImgEnv) (output_dir : String)
    (store : ResultStore) (result_path : String) (upload_images : Bool)
    (d0 : RespData) (md_file : MdFile) : RespData × ResultStore :=
  let image_dir := md_file.parent ++ "/images"
  let imagesExist := store.imagesDirExists md_file.parent
  match (if upload_images then store.cacheAt md_file.parent else none) with
  | some cached =>
    ({ d0 with
        markdown_file := some "result_minio.md"
        content := some cached
        images_uploaded := some true
        from_cache := some true }, store)
  | none =>
    let md0 := md_file.content
    let md1 :=
      if imagesExist then
        (process_markdown_images cfg env output_dir md0 image_dir result_path upload_images).1
      else md0
    let store2 :=
      if imagesExist ∧ upload_images ∧ store.cacheWriteOk then
        { store with cacheAt := fun p => if p = md_file.parent then some md1 else store.cacheAt p }
      else store
    ({ d0 with
        markdown_file := some md_file.name
        content := some md1
        images_uploaded := some upload_images
        has_images := if upload_images then none else some imagesExist
        from_cache := some false }, store2)

/-- The JSON block of the completed-task branch (source lines 489–505). -/
def jsonPart (json_files : List JsonFile) (format : String) (d1 : RespData) : RespData :=
  if (format = "json" ∨ format = "both") ∧ ¬ json_files.isEmpty then
    match json_files.head? with
    | some jf => { d1 with json_file := some jf.name, json_content := some jf.content }
    | none => d1
  else if format = "json" ∧ json_files.isEmpty then
    { d1 with message := some "JSON format not available for this backend" }
  else d1

/-- Everything the completed-task branch computes from the result directory:
    the optional `data` field and the directory state after the call. -/
def completedData (cfg : MinioConfig) (env : ImgEnv) (output_dir : String)
    (store : ResultStore) (result_path : String) (upload_images : Bool)
    (format : String) : Option RespData × ResultStore :=
  if store.dirExists = false then (none, store)
  else
    let json_files := store.jsonFiles.filter jsonFilter
    match chooseMd store.mdFiles with
    | none => (none, store)
    | some md_file =>
      if store.readRaises then (none, store)
      else
        let d0 : RespData := { json_available := ¬ json_files.isEmpty }
        let step :=
          if format = "markdown" ∨ format = "both" then
            markdownPart cfg env output_dir store result_path upload_images d0 md_file
          else (d0, store)
        (some (jsonPart json_files format step.1), step.2)

/-- The task-status response. -/
structure TaskResponse where
  task_id : String
  status : String
  file_name : String
  backend : String
  priority : Int
  error_message : Option String
  created_at : Option String
  started_at : Option String
  completed_at : Option String
  worker_id : Option String
  retry_count : Nat
  user_id : Option String
  data : Option RespData := none
  message : Option String := none
deriving DecidableEq, Repr

/-- Embedding of `get_task_status`: 404 when unknown, 403 for a foreign task
    without `TASK_VIEW_ALL`, else the base response, augmented with result
    content for a completed task. -/
def get_task_status (cfg : MinioConfig) (env : ImgEnv) (output_dir : String)
    (db : String → Option Task) (store : ResultStore) (task_id : String)
    (upload_images : Bool) (format : String) (user : User) :
    Except HTTPEx TaskResponse × ResultStore :=
  match db task_id with
  | none => (.error ⟨404, "Task not found"⟩, store)
  | some task =>
    if user.has_permission .TASK_VIEW_ALL = false ∧ task.user_id ≠ some user.user_id then
      (.error ⟨403, "Permission denied: You can only view your own tasks"⟩, store)
    else
      let base : TaskResponse :=
        { task_id := task_id, status := task.status, file_name := task.file_name,
          backend := task.backend, priority := task.priority,
          error_message := task.error_message, created_at := task.created_at,
          started_at := task.started_at, completed_at := task.completed_at,
          worker_id := task.worker_id, retry_count := task.retry_count,
          user_id := task.user_id }
      if task.status = "completed" then
        match task.result_path with
        | none =>
          (.ok { base with
              data := none
              message := some "Task completed but result files have been cleaned up (older than retention period)" },
           store)
        | some rp =>
          (.ok { base with
              data := (completedData cfg env output_dir store rp upload_images format).1 },
           (completedData cfg env output_dir store rp upload_images format).2)
      else (.ok base, store)

/-! ### Markdown merge (paddleocr_vl_vllm/engine.py, parse lines 344–358) -/

/-- A per-page `res.markdown` value: the engine hands back either a string
    or a dict, read via `str(md) if isinstance(md, str) else str(md.get("text", ""))`. -/
inductive MdVal
  | strv (s : String)
  | dictv (text : Option String)
deriving DecidableEq, Repr

def mdValToStr : MdVal → String
  | .strv s => s
  | .dictv t => t.getD ""

/-- The page-merge step: the pipeline's `concatenate_markdown_pages` when
    the method exists, else the literal `"\n\n---\n\n"` join. -/
def mergeMarkdownPages (concatFn : Option (List MdVal → String))
    (markdown_list : List MdVal) : String :=
  match concatFn with
  | some f => f markdown_list
  | none => String.intercalate "\n\n---\n\n" (markdown_list.map mdValToStr)

/-- What `parse` writes to `result.md`: the file path and its content. -/
def parseSaveMarkdown (output_path : String) (concatFn : Option (List MdVal → String))
    (markdown_list : List MdVal) : String × String :=
  (output_path ++ "/result.md", mergeMarkdownPages concatFn markdown_list)

/-! ### Engine singleton (paddleocr_vl_vllm/engine.py) -/

/-- Class-level state of `PaddleOCRVLVLLMEngine` plus an allocation counter
    so that object identity is observable: `__new__` returns `_instance`
    when set, else allocates a fresh object id. -/
structure EngineClassState where
  _instance : Option Nat
  _initialized : Bool
  nextId : Nat
  device : String
  gpu_id : Int
  vllm_api_base : String
deriving DecidableEq, Repr

/-- `__new__`: double-checked singleton allocation. -/
def engineNew (st : EngineClassState) : Nat × EngineClassState :=
  match st._instance with
  | some i => (i, st)
  | none => (st.nextId, { st with _instance := some st.nextId, nextId := st.nextId + 1 })

/-- `int(device.split(":")[-1])` guarded by `"cuda:" in device`. -/
def gpuIdOf (device : String) : Option Int :=
  if containsStr device "cuda:" then
    parsePyInt ⟨((splitOnChar ':' device.data).getLastD [])⟩
  else some 0

/-- `__init__`: a no-op once `_initialized`; otherwise stores `device` and
    `vllm_api_base`, derives `gpu_id` (a `ValueError` there leaves the
    instance partly set and not initialized), and flips `_initialized`. -/
def engineInit (device vllm_api_base : String) (st : EngineClassState) :
    Except String Unit × EngineClassState :=
  if st._initialized then (.ok (), st)
  else
    match gpuIdOf device with
    | none =>
      (.error "invalid literal for int()",
       { st with device := device, vllm_api_base := vllm_api_base })
    | some g =>
      (.ok (),
       { st with
          device := device
          vllm_api_base := vllm_api_base
          gpu_id := g
          _initialized := true })

/-- `PaddleOCRVLVLLMEngine(device, vllm_api_base)`: `__new__` then `__init__`. -/
def engineConstruct (device vllm_api_base : String) (st : EngineClassState) :
    Except String Nat × EngineClassState :=
  let n := engineNew st
  match engineInit device vllm_api_base n.2 with
  | (.ok _, st2) => (.ok n.1, st2)
  | (.error e, st2) => (.error e, st2)

/-- Module-level `get_engine`: caches the constructed engine in the global
    `_engine` (left unset if construction raises). -/
def get_engine (engGlobal : Option Nat) (st : EngineClassState) :
    Except String Nat × Option Nat × EngineClassState :=
  match engGlobal with
  | some e => (.ok e, some e, st)
  | none =>
    match engineConstruct "cuda:0" "http://localhost:17300/v1" st with
    | (.ok oid, st2) => (.ok oid, some oid, st2)
    | (.error e, st2) => (.error e, none, st2)

/-! ## Claims -/

/-- C1: the spec requires every request whose canonicalized target escapes
    the canonicalized output root to get a 403.  The code's check is a plain
    string-prefix test on the resolved path, so a sibling directory whose
    name extends the root's name passes it: for root `/app/output`, the
    request `../output_evil/secret.txt` resolves to
    `/app/output_evil/secret.txt` — outside the root — yet the endpoint
    serves the file instead of responding 403. -/
theorem c1_traversal_check_bypassed :
    pathResolve (pathJoin "/app/output" (unquote "../output_evil/secret.txt"))
        = "/app/output_evil/secret.txt"
    ∧ resolvedWithin "/app/output_evil/secret.txt" "/app/output" = false
    ∧ serve_output_file "/app/output"
        (fun p => p = "/app/output_evil/secret.txt")
        (fun p => p = "/app/output_evil/secret.txt")
        "../output_evil/secret.txt"
      = .file "/app/output_evil/secret.txt" := by
  refine ⟨by decide, by decide, by decide⟩

def c2Task : Task :=
  { status := "processing", file_name := "a.pdf",
    file_path := "/app/uploads/u1_a.pdf", backend := "auto", priority := 0,
    error_message := none, created_at := some "2026-01-01",
    started_at := some "2026-01-01", completed_at := none,
    worker_id := some "w0", retry_count := 0, user_id := some "u1",
    result_path := none }

def c2Db : String → Option Task :=
  fun i => if i = "t1" then some c2Task else none

def c2User : User := ⟨"u1", "alice", [.TASK_DELETE_ALL]⟩

/-- C2 counterexample: cancelling a `processing` task fails with HTTP 400,
    not 409 as the claim states (and the store is left unchanged). -/
theorem c2_cancel_counterexample :
    errStatus (cancel_task c2Db (fun _ => false) "t1" c2User).1 = some 400
    ∧ errStatus (cancel_task c2Db (fun _ => false) "t1" c2User).1 ≠ some 409
    ∧ (cancel_task c2Db (fun _ => false) "t1" c2User).2.1 "t1" = some c2Task := by
  refine ⟨by decide, by decide, by decide⟩

/-- C2 amended: for an authorized caller, cancelling a task whose status is
    not `pending` fails with HTTP **400** and changes nothing; only a
    pending task is transitioned to `cancelled`. -/
theorem c2_cancel_amended (db : String → Option Task) (fs : String → Bool)
    (tid : String) (user : User) (task : Task)
    (hdb : db tid = some task)
    (hauth : user.has_permission .TASK_DELETE_ALL = true ∨ task.user_id = some user.user_id) :
    (task.status ≠ "pending" →
      (cancel_task db fs tid user).1
          = .error ⟨400, "Cannot cancel task in " ++ task.status ++ " status"⟩
      ∧ (cancel_task db fs tid user).2.1 = db
      ∧ (cancel_task db fs tid user).2.2 = [])
    ∧ (task.status = "pending" →
      (cancel_task db fs tid user).2.1 tid = some { task with status := "cancelled" }) := by
  have hcond : ¬(user.has_permission .TASK_DELETE_ALL = false ∧
      task.user_id ≠ some user.user_id) := by
    rcases hauth with h | h
    · simp [h]
    · simp [h]
  constructor
  · intro hst
    unfold cancel_task
    simp only [hdb]
    rw [if_neg hcond, if_neg hst]
    exact ⟨rfl, rfl, rfl⟩
  · intro hst
    unfold cancel_task
    simp only [hdb]
    rw [if_neg hcond, if_pos hst]
    simp

/-- C2 witness: the amended claim at concrete inputs — a `processing` task
    is rejected with 400 and kept, a `pending` task becomes `cancelled`. -/
theorem c2_cancel_amended_witness :
    ((c2Task.status ≠ "pending" →
      (cancel_task c2Db (fun _ => false) "t1" c2User).1
          = .error ⟨400, "Cannot cancel task in " ++ c2Task.status ++ " status"⟩
      ∧ (cancel_task c2Db (fun _ => false) "t1" c2User).2.1 = c2Db
      ∧ (cancel_task c2Db (fun _ => false) "t1" c2User).2.2 = [])
    ∧ (c2Task.status = "pending" →
      (cancel_task c2Db (fun _ => false) "t1" c2User).2.1 "t1"
          = some { c2Task with status := "cancelled" }))
    ∧ ((cancel_task (fun i => if i = "t2" then some { c2Task with status := "pending" } else none)
          (fun _ => false) "t2" c2User).2.1 "t2"
        = some { c2Task with status := "cancelled" }) :=
  ⟨c2_cancel_amended c2Db (fun _ => false) "t1" c2User c2Task (by decide) (Or.inl (by decide)),
   (c2_cancel_amended (fun i => if i = "t2" then some { c2Task with status := "pending" } else none)
      (fun _ => false) "t2" c2User { c2Task with status := "pending" } (by decide)
      (Or.inl (by decide))).2 rfl⟩

theorem split_pdf_file_length (stem out : String) (P C : Nat) (hC : C ≠ 0) :
    (split_pdf_file stem out P C).length = (P + C - 1) / C := by
  simp [split_pdf_file, pyRange, hC]

theorem split_pdf_file_get (stem out : String) (P C k : Nat) (hC : C ≠ 0)
    (hk : k < (split_pdf_file stem out P C).length) :
    ((split_pdf_file stem out P C).get ⟨k, hk⟩).start_page = k * C + 1
    ∧ ((split_pdf_file stem out P C).get ⟨k, hk⟩).end_page = min (k * C + C) P
    ∧ ((split_pdf_file stem out P C).get ⟨k, hk⟩).page_count = min (k * C + C) P - k * C := by
  simp [split_pdf_file, pyRange, hC]

/-- C6: for `P ≥ 1` pages and chunk size `C ≥ 1`, `split_pdf_file` produces
    exactly `⌈P/C⌉` records; the 1-based ranges start at 1, end at `P`, are
    adjacent (each start is the previous end plus one), non-empty, satisfy
    `page_count = end_page - start_page + 1`, and never exceed `C` pages. -/
theorem c6_split_pdf_chunks (stem out : String) (P C : Nat) (hP : 1 ≤ P) (hC : 1 ≤ C) :
    (split_pdf_file stem out P C).length = (P + C - 1) / C
    ∧ 0 < (split_pdf_file stem out P C).length
    ∧ (∀ h0 : 0 < (split_pdf_file stem out P C).length,
        ((split_pdf_file stem out P C).get ⟨0, h0⟩).start_page = 1)
    ∧ (∀ hl : (split_pdf_file stem out P C).length - 1 < (split_pdf_file stem out P C).length,
        ((split_pdf_file stem out P C).get
            ⟨(split_pdf_file stem out P C).length - 1, hl⟩).end_page = P)
    ∧ (∀ k, ∀ h1 : k + 1 < (split_pdf_file stem out P C).length,
        ((split_pdf_file stem out P C).get ⟨k + 1, h1⟩).start_page
          = ((split_pdf_file stem out P C).get ⟨k, Nat.lt_of_succ_lt h1⟩).end_page + 1)
    ∧ (∀ k, ∀ hk : k < (split_pdf_file stem out P C).length,
        ((split_pdf_file stem out P C).get ⟨k, hk⟩).page_count
            = ((split_pdf_file stem out P C).get ⟨k, hk⟩).end_page
              - ((split_pdf_file stem out P C).get ⟨k, hk⟩).start_page + 1
          ∧ ((split_pdf_file stem out P C).get ⟨k, hk⟩).start_page
              ≤ ((split_pdf_file stem out P C).get ⟨k, hk⟩).end_page
          ∧ ((split_pdf_file stem out P C).get ⟨k, hk⟩).page_count ≤ C) := by
  have hC0 : C ≠ 0 := by omega
  have hlen := split_pdf_file_length stem out P C hC0
  have hd := Nat.div_add_mod (P + C - 1) C
  have hmod : (P + C - 1) % C < C := Nat.mod_lt _ (by omega)
  have hn1 : 0 < (P + C - 1) / C := Nat.div_pos (by omega) (by omega)
  -- `⌈P/C⌉·C` covers `P`:
  have hcov : P ≤ C * ((P + C - 1) / C) := by omega
  have hbound : C * ((P + C - 1) / C) ≤ P + C - 1 := by omega
  -- every chunk start index `k·C` with `k < ⌈P/C⌉` lies inside the document
  have hstart : ∀ k, k < (P + C - 1) / C → k * C < P := by
    intro k hk
    have h1 : (k + 1) * C ≤ ((P + C - 1) / C) * C := Nat.mul_le_mul_right C (by omega)
    have h2 : (k + 1) * C = k * C + C := by ring
    have h3 : ((P + C - 1) / C) * C = C * ((P + C - 1) / C) := Nat.mul_comm _ _
    omega
  refine ⟨hlen, by omega, ?_, ?_, ?_, ?_⟩
  · intro h0
    have := (split_pdf_file_get stem out P C 0 hC0 h0).1
    simpa using this
  · intro hl
    obtain ⟨-, he, -⟩ := split_pdf_file_get stem out P C
      ((split_pdf_file stem out P C).length - 1) hC0 hl
    rw [he]
    have hone : (split_pdf_file stem out P C).length - 1 + 1 = (P + C - 1) / C := by omega
    have h4 : ((split_pdf_file stem out P C).length - 1 + 1) * C
        = ((P + C - 1) / C) * C := by rw [hone]
    have h5 : ((split_pdf_file stem out P C).length - 1 + 1) * C
        = ((split_pdf_file stem out P C).length - 1) * C + C := by ring
    have h3 : ((P + C - 1) / C) * C = C * ((P + C - 1) / C) := Nat.mul_comm _ _
    omega
  · intro k h1
    obtain ⟨hs, -, -⟩ := split_pdf_file_get stem out P C (k + 1) hC0 h1
    obtain ⟨-, he, -⟩ := split_pdf_file_get stem out P C k hC0 (Nat.lt_of_succ_lt h1)
    rw [hs, he]
    have hkn : k + 1 < (P + C - 1) / C := by omega
    have hlt := hstart (k + 1) hkn
    have h2 : (k + 1) * C = k * C + C := by ring
    omega
  · intro k hk
    obtain ⟨hs, he, hp2⟩ := split_pdf_file_get stem out P C k hC0 hk
    have hkn : k < (P + C - 1) / C := by omega
    have hlt := hstart k hkn
    rw [hs, he, hp2]
    omega

/-- C6 witness: the chunk layout of a 5-page PDF split by 2. -/
theorem c6_split_pdf_chunks_witness :
    (split_pdf_file "doc" "/tmp" 5 2).length = (5 + 2 - 1) / 2
    ∧ (split_pdf_file "doc" "/tmp" 5 2).map
        (fun c => (c.start_page, c.end_page, c.page_count)) = [(1, 2, 2), (3, 4, 2), (5, 5, 1)] :=
  ⟨(c6_split_pdf_chunks "doc" "/tmp" 5 2 (by decide) (by decide)).1, by decide⟩

/-- C7: when the pipeline has no `concatenate_markdown_pages`, the Markdown
    written to `result.md` is the per-page strings joined with the literal
    `"\n\n---\n\n"` separator in page order; when the method exists, its
    output is written instead — and the file written is `result.md` under
    the output path. -/
theorem c7_markdown_concat (output_path : String) (pages : List String)
    (f : List MdVal → String) (l : List MdVal) :
    (parseSaveMarkdown output_path none (pages.map .strv)).2
        = String.intercalate "\n\n---\n\n" pages
    ∧ (parseSaveMarkdown output_path (some f) l).2 = f l
    ∧ (parseSaveMarkdown output_path none (pages.map .strv)).1
        = output_path ++ "/result.md" := by
  refine ⟨?_, rfl, rfl⟩
  have h : (pages.map MdVal.strv).map mdValToStr = pages := by
    rw [List.map_map]
    have hid : mdValToStr ∘ MdVal.strv = id := funext fun s => rfl
    rw [hid, List.map_id]
  simp [parseSaveMarkdown, mergeMarkdownPages, h]

/-- C9: construction of `PaddleOCRVLVLLMEngine` is a per-process singleton:
    the first successful construction fixes `device`, `gpu_id` and
    `vllm_api_base`, and any later construction — even with different
    arguments — returns the same object and leaves the state untouched;
    `get_engine` returns the cached instance. -/
theorem c9_engine_singleton (st st1 : EngineClassState) (d1 a1 d2 a2 : String) (oid : Nat)
    (hinst : st._instance = none) (hini : st._initialized = false)
    (hc : engineConstruct d1 a1 st = (.ok oid, st1)) :
    st1.device = d1 ∧ st1.vllm_api_base = a1 ∧ st1.gpu_id = (gpuIdOf d1).getD 0
    ∧ st1._initialized = true ∧ st1._instance = some oid
    ∧ engineConstruct d2 a2 st1 = (.ok oid, st1)
    ∧ get_engine (some oid) st1 = (.ok oid, some oid, st1) := by
  unfold engineConstruct engineNew at hc
  rw [hinst] at hc
  unfold engineInit at hc
  simp only [hini, Bool.false_eq_true, if_false] at hc
  cases hg : gpuIdOf d1 with
  | none => rw [hg] at hc; simp at hc
  | some g =>
    rw [hg] at hc
    simp only [Prod.mk.injEq, Except.ok.injEq] at hc
    obtain ⟨h1, h2⟩ := hc
    subst h1
    subst h2
    refine ⟨rfl, rfl, by simp [hg], rfl, rfl, ?_, rfl⟩
    unfold engineConstruct engineNew engineInit
    simp

def c9St0 : EngineClassState :=
  { _instance := none, _initialized := false, nextId := 7,
    device := "", gpu_id := 0, vllm_api_base := "" }

def c9St1 : EngineClassState :=
  { _instance := some 7, _initialized := true, nextId := 8,
    device := "cuda:1", gpu_id := 1, vllm_api_base := "http://h:17300/v1" }

/-- C9 witness: a concrete first construction with `cuda:1` followed by a
    second one with `cuda:3` that silently keeps the first call's values. -/
theorem c9_engine_singleton_witness :
    c9St1.device = "cuda:1" ∧ c9St1.vllm_api_base = "http://h:17300/v1"
    ∧ c9St1.gpu_id = (gpuIdOf "cuda:1").getD 0
    ∧ c9St1._initialized = true ∧ c9St1._instance = some 7
    ∧ engineConstruct "cuda:3" "http://other/v1" c9St1 = (.ok 7, c9St1)
    ∧ get_engine (some 7) c9St1 = (.ok 7, some 7, c9St1) :=
  c9_engine_singleton c9St0 c9St1 "cuda:1" "http://h:17300/v1" "cuda:3" "http://other/v1" 7
    rfl rfl rfl

/-- The URL the spec prescribes for the local strategy (claim C3):
    `/api/v1/files/output/<url-encoded result_path relative to the output
    root>/images/<url-encoded basename>`, with `/` kept safe by the
    encoding.  Stated with the same primitives the code uses so the
    rewrite theorem can compare the two. -/
def specLocalImageUrl (output_root result_path basename : String) : String :=
  "/api/v1/files/output/" ++
    quote (lstripSlash (pyDrop (replaceBackslash result_path)
      (pyLen (replaceBackslash output_root)))) ++
    "/images/" ++ quote basename

/-- C3: with `upload_images=false`, a Markdown reference `![alt](path)` or an
    HTML reference `<img ... src="path" ...>` whose basename exists in
    `image_dir`, for a `result_path` under the output root, has its src
    replaced by exactly the spec's static URL; a reference whose basename is
    missing is returned byte-for-byte unchanged (`match.group(0)`). -/
theorem c3_image_rewrite (cfg : MinioConfig) (env : ImgEnv)
    (output_dir image_dir result_path alt path ws mid g3 : String)
    (hraise : env.urlGenRaises = false) :
    (env.fileExists (image_dir ++ "/" ++ pathName path) = true →
      pyStartsWith (replaceBackslash result_path) (replaceBackslash output_dir) = true →
      (replace_md_image (process_image_path cfg env output_dir image_dir result_path false)
          alt path).1
          = "![" ++ alt ++ "](" ++ specLocalImageUrl output_dir result_path (pathName path) ++ ")"
      ∧ (replace_html_image (process_image_path cfg env output_dir image_dir result_path false)
          ws mid path g3).1
          = "<img " ++ mid ++ "src=\"" ++
              specLocalImageUrl output_dir result_path (pathName path) ++ "\"" ++ g3 ++ ">")
    ∧ (env.fileExists (image_dir ++ "/" ++ pathName path) = false →
      (replace_md_image (process_image_path cfg env output_dir image_dir result_path false)
          alt path).1
          = "![" ++ alt ++ "](" ++ path ++ ")"
      ∧ (replace_html_image (process_image_path cfg env output_dir image_dir result_path false)
          ws mid path g3).1
          = "<img" ++ ws ++ mid ++ "src=\"" ++ path ++ "\"" ++ g3 ++ ">") := by
  constructor
  · intro hex hsw
    have hp : process_image_path cfg env output_dir image_dir result_path false path
        = (some (specLocalImageUrl output_dir result_path (pathName path), .markdown), []) := by
      unfold process_image_path
      simp [hex, hraise, hsw, specLocalImageUrl]
    exact ⟨by simp [replace_md_image, hp], by simp [replace_html_image, hp]⟩
  · intro hex
    have hp : process_image_path cfg env output_dir image_dir result_path false path
        = (none, []) := by
      unfold process_image_path
      simp [hex]
    exact ⟨by simp [replace_md_image, hp], by simp [replace_html_image, hp]⟩

def c3EnvAll : ImgEnv := ⟨fun _ => true, fun _ => false, fun _ => "u", false, false⟩

def c3EnvNone : ImgEnv := ⟨fun _ => false, fun _ => false, fun _ => "u", false, false⟩

def c3Cfg : MinioConfig := ⟨"minio.local", "ak", "sk", true, "bkt"⟩

/-- C3 witness: the rewrite at concrete inputs — an existing `figs/x.png`
    becomes `/api/v1/files/output/task1/images/x.png` in both reference
    shapes, and a missing basename leaves both references unchanged. -/
theorem c3_image_rewrite_witness :
    ((replace_md_image (process_image_path c3Cfg c3EnvAll "/app/output"
          "/app/output/task1/images" "/app/output/task1" false) "cap" "figs/x.png").1
        = "![" ++ "cap" ++ "](" ++
            specLocalImageUrl "/app/output" "/app/output/task1" (pathName "figs/x.png") ++ ")"
      ∧ (replace_html_image (process_image_path c3Cfg c3EnvAll "/app/output"
          "/app/output/task1/images" "/app/output/task1" false) " " "" "figs/x.png" " alt=\"y\"").1
        = "<img " ++ "" ++ "src=\"" ++
            specLocalImageUrl "/app/output" "/app/output/task1" (pathName "figs/x.png") ++
            "\"" ++ " alt=\"y\"" ++ ">")
    ∧ ((replace_md_image (process_image_path c3Cfg c3EnvNone "/app/output"
          "/app/output/task1/images" "/app/output/task1" false) "cap" "figs/x.png").1
        = "![" ++ "cap" ++ "](" ++ "figs/x.png" ++ ")"
      ∧ (replace_html_image (process_image_path c3Cfg c3EnvNone "/app/output"
          "/app/output/task1/images" "/app/output/task1" false) " " "" "figs/x.png" " alt=\"y\"").1
        = "<img" ++ " " ++ "" ++ "src=\"" ++ "figs/x.png" ++ "\"" ++ " alt=\"y\"" ++ ">")
    ∧ specLocalImageUrl "/app/output" "/app/output/task1" (pathName "figs/x.png")
        = "/api/v1/files/output/task1/images/x.png" :=
  ⟨(c3_image_rewrite c3Cfg c3EnvAll "/app/output" "/app/output/task1/images" "/app/output/task1"
      "cap" "figs/x.png" " " "" " alt=\"y\"" rfl).1 rfl rfl,
   (c3_image_rewrite c3Cfg c3EnvNone "/app/output" "/app/output/task1/images" "/app/output/task1"
      "cap" "figs/x.png" " " "" " alt=\"y\"" rfl).2 rfl,
   by decide⟩

/-- C5: with `upload_images=false`, `process_markdown_images` performs no
    mutation at all, for every input: its effect trace is empty — it only
    reads `image_dir` and returns a string. -/
theorem c5_no_fs_mutation (cfg : MinioConfig) (env : ImgEnv)
    (output_dir md_content image_dir result_path : String) :
    (process_markdown_images cfg env output_dir md_content image_dir result_path false).2
      = [] := by
  unfold process_markdown_images
  split
  · rfl
  · have hp : ∀ p,
        (process_image_path cfg env output_dir image_dir result_path false p).2 = [] := by
      intro p
      unfold process_image_path
      repeat' (first | rfl | contradiction | split | simp)
    simp [reSubMd_effects _ hp, reSubHtml_effects _ hp]

/-- C10: the rewriting pipeline is failure-contained.  (1) An exception
    escaping substitution is caught and the original document is returned.
    (2)–(3) each substitution pass is exactly a per-match map over the
    document's match decomposition, so references are processed
    independently of each other and of the surrounding text.  (4)–(5) a
    reference whose processing failed renders as its own original text.
    (6) a missing basename fails processing, and (7) with
    `upload_images=true` an upload failure followed by a failing local
    fallback also fails processing — in both cases that single reference is
    left unchanged while the rest of the document is still rewritten. -/
theorem c10_rewrite_failure_containment :
    (∀ (cfg : MinioConfig) (env : ImgEnv) (odir md idir rp : String) (up : Bool),
      env.subRaises = true →
      (process_markdown_images cfg env odir md idir rp up).1 = md)
    ∧ (∀ (pip : String → Option (String × FmtType) × List Effect) (s : List Char),
      (reSubMd pip s).1 = ((mdParse s).map (renderMdSeg pip)).flatten)
    ∧ (∀ (pip : String → Option (String × FmtType) × List Effect) (s : List Char),
      (reSubHtml pip s).1 = ((htmlParse s).map (renderHtmlSeg pip)).flatten)
    ∧ (∀ (pip : String → Option (String × FmtType) × List Effect) (alt path : List Char),
      (pip ⟨path⟩).1 = none →
      renderMdSeg pip (.ref alt path)
        = ("![" ++ (⟨alt⟩ : String) ++ "](" ++ (⟨path⟩ : String) ++ ")").data)
    ∧ (∀ (pip : String → Option (String × FmtType) × List Effect)
        (ws mid path g3 : List Char),
      (pip ⟨path⟩).1 = none →
      renderHtmlSeg pip (.tag ws mid path g3)
        = ("<img" ++ (⟨ws⟩ : String) ++ (⟨mid⟩ : String) ++ "src=\"" ++ (⟨path⟩ : String) ++
            "\"" ++ (⟨g3⟩ : String) ++ ">").data)
    ∧ (∀ (cfg : MinioConfig) (env : ImgEnv) (odir idir rp : String) (up : Bool) (p : String),
      env.fileExists (idir ++ "/" ++ pathName p) = false →
      (process_image_path cfg env odir idir rp up p).1 = none)
    ∧ (∀ (cfg : MinioConfig) (env : ImgEnv) (odir idir rp : String) (p : String),
      env.uploadOk (idir ++ "/" ++ pathName p) = false →
      env.urlGenRaises = true →
      (process_image_path cfg env odir idir rp true p).1 = none) := by
  refine ⟨?_, reSubMd_render, reSubHtml_render, ?_, ?_, ?_, ?_⟩
  · intro cfg env odir md idir rp up h
    unfold process_markdown_images
    rw [if_pos (by simp [h])]
  · intro pip alt path hp
    unfold renderMdSeg replace_md_image
    cases hpp : pip ⟨path⟩ with
    | mk a b =>
      rw [hpp] at hp
      simp only at hp
      subst hp
      simp [hpp]
  · intro pip ws mid path g3 hp
    unfold renderHtmlSeg replace_html_image
    cases hpp : pip ⟨path⟩ with
    | mk a b =>
      rw [hpp] at hp
      simp only at hp
      subst hp
      simp [hpp]
  · intro cfg env odir idir rp up p h
    unfold process_image_path
    simp [h]
  · intro cfg env odir idir rp p h1 h2
    unfold process_image_path
    repeat' (first | rfl | contradiction | split | simp_all)

def c10EnvRaise : ImgEnv := ⟨fun _ => true, fun _ => true, fun _ => "u", false, true⟩

def c10EnvFail : ImgEnv := ⟨fun _ => true, fun _ => false, fun _ => "u", true, false⟩

def c10Pip : String → Option (String × FmtType) × List Effect := fun _ => (none, [])

/-- C10 witness: each containment property at a concrete input. -/
theorem c10_rewrite_failure_containment_witness :
    (process_markdown_images c3Cfg c10EnvRaise "/app/output" "doc ![a](b)"
        "/app/output/t/images" "/app/output/t" false).1 = "doc ![a](b)"
    ∧ (reSubMd c10Pip "x ![a](b)".data).1
        = ((mdParse "x ![a](b)".data).map (renderMdSeg c10Pip)).flatten
    ∧ (reSubHtml c10Pip "x <img src=\"b\">".data).1
        = ((htmlParse "x <img src=\"b\">".data).map (renderHtmlSeg c10Pip)).flatten
    ∧ renderMdSeg c10Pip (.ref "a".data "b".data)
        = ("![" ++ ("a" : String) ++ "](" ++ ("b" : String) ++ ")").data
    ∧ renderHtmlSeg c10Pip (.tag " ".data "".data "b".data "".data)
        = ("<img" ++ (" " : String) ++ ("" : String) ++ "src=\"" ++ ("b" : String) ++
            "\"" ++ ("" : String) ++ ">").data
    ∧ (process_image_path c3Cfg c3EnvNone "/app/output" "/app/output/t/images"
        "/app/output/t" true "x.png").1 = none
    ∧ (process_image_path c3Cfg c10EnvFail "/app/output" "/app/output/t/images"
        "/app/output/t" true "x.png").1 = none := by
  obtain ⟨h1, h2, h3, h4, h5, h6, h7⟩ := c10_rewrite_failure_containment
  exact ⟨h1 c3Cfg c10EnvRaise "/app/output" "doc ![a](b)" "/app/output/t/images"
      "/app/output/t" false rfl,
    h2 c10Pip "x ![a](b)".data,
    h3 c10Pip "x <img src=\"b\">".data,
    h4 c10Pip "a".data "b".data rfl,
    h5 c10Pip " ".data "".data "b".data "".data rfl,
    h6 c3Cfg c3EnvNone "/app/output" "/app/output/t/images" "/app/output/t" true "x.png" rfl,
    h7 c3Cfg c10EnvFail "/app/output" "/app/output/t/images" "/app/output/t" "x.png" rfl rfl⟩

/-- C8: an authenticated GET of an existing task by a user who neither owns
    it nor holds `TASK_VIEW_ALL` is rejected with HTTP 403 and no response
    object; an owner, or a holder of `TASK_VIEW_ALL`, receives the task's
    status and metadata. -/
theorem c8_task_view_authz (cfg : MinioConfig) (env : ImgEnv) (odir : String)
    (db : String → Option Task) (store : ResultStore) (tid : String)
    (up : Bool) (fmt : String) (user : User) (task : Task)
    (hdb : db tid = some task) :
    (user.has_permission .TASK_VIEW_ALL = false → task.user_id ≠ some user.user_id →
      (get_task_status cfg env odir db store tid up fmt user).1
        = .error ⟨403, "Permission denied: You can only view your own tasks"⟩)
    ∧ (user.has_permission .TASK_VIEW_ALL = true ∨ task.user_id = some user.user_id →
      ∃ resp, (get_task_status cfg env odir db store tid up fmt user).1 = .ok resp
        ∧ resp.task_id = tid ∧ resp.status = task.status ∧ resp.file_name = task.file_name
        ∧ resp.backend = task.backend ∧ resp.priority = task.priority
        ∧ resp.retry_count = task.retry_count ∧ resp.created_at = task.created_at
        ∧ resp.worker_id = task.worker_id ∧ resp.user_id = task.user_id) := by
  constructor
  · intro hperm hown
    unfold get_task_status
    simp only [hdb]
    rw [if_pos ⟨hperm, hown⟩]
  · intro hauth
    have hcond : ¬(user.has_permission .TASK_VIEW_ALL = false ∧
        task.user_id ≠ some user.user_id) := by
      rcases hauth with h | h
      · simp [h]
      · simp [h]
    unfold get_task_status
    simp only [hdb]
    rw [if_neg hcond]
    split
    · split
      · exact ⟨_, rfl, rfl, rfl, rfl, rfl, rfl, rfl, rfl, rfl, rfl⟩
      · exact ⟨_, rfl, rfl, rfl, rfl, rfl, rfl, rfl, rfl, rfl, rfl⟩
    · exact ⟨_, rfl, rfl, rfl, rfl, rfl, rfl, rfl, rfl, rfl, rfl⟩

def c8Store : ResultStore :=
  { dirExists := false, mdFiles := [], jsonFiles := [],
    imagesDirExists := fun _ => false, cacheAt := fun _ => none,
    cacheWriteOk := true, readRaises := false }

def c8Task : Task :=
  { c2Task with status := "pending", user_id := some "owner1" }

/-- C8 witness: a stranger without `TASK_VIEW_ALL` gets 403; the owner gets
    the task's status and metadata. -/
theorem c8_task_view_authz_witness :
    ((User.has_permission ⟨"intruder", "eve", []⟩ .TASK_VIEW_ALL = false →
      c8Task.user_id ≠ some (User.user_id ⟨"intruder", "eve", []⟩) →
      (get_task_status c3Cfg c3EnvAll "/app/output"
          (fun i => if i = "t9" then some c8Task else none) c8Store "t9" false "markdown"
          ⟨"intruder", "eve", []⟩).1
        = .error ⟨403, "Permission denied: You can only view your own tasks"⟩)
    ∧ (User.has_permission ⟨"intruder", "eve", []⟩ .TASK_VIEW_ALL = true
        ∨ c8Task.user_id = some (User.user_id ⟨"intruder", "eve", []⟩) →
      ∃ resp, (get_task_status c3Cfg c3EnvAll "/app/output"
          (fun i => if i = "t9" then some c8Task else none) c8Store "t9" false "markdown"
          ⟨"intruder", "eve", []⟩).1 = .ok resp
        ∧ resp.task_id = "t9" ∧ resp.status = c8Task.status
        ∧ resp.file_name = c8Task.file_name ∧ resp.backend = c8Task.backend
        ∧ resp.priority = c8Task.priority ∧ resp.retry_count = c8Task.retry_count
        ∧ resp.created_at = c8Task.created_at ∧ resp.worker_id = c8Task.worker_id
        ∧ resp.user_id = c8Task.user_id))
    ∧ (∃ resp, (get_task_status c3Cfg c3EnvAll "/app/output"
          (fun i => if i = "t9" then some c8Task else none) c8Store "t9" false "markdown"
          ⟨"owner1", "olive", []⟩).1 = .ok resp
        ∧ resp.task_id = "t9" ∧ resp.status = c8Task.status
        ∧ resp.file_name = c8Task.file_name ∧ resp.backend = c8Task.backend
        ∧ resp.priority = c8Task.priority ∧ resp.retry_count = c8Task.retry_count
        ∧ resp.created_at = c8Task.created_at ∧ resp.worker_id = c8Task.worker_id
        ∧ resp.user_id = c8Task.user_id) :=
  ⟨c8_task_view_authz c3Cfg c3EnvAll "/app/output"
      (fun i => if i = "t9" then some c8Task else none) c8Store "t9" false "markdown"
      ⟨"intruder", "eve", []⟩ c8Task rfl,
   (c8_task_view_authz c3Cfg c3EnvAll "/app/output"
      (fun i => if i = "t9" then some c8Task else none) c8Store "t9" false "markdown"
      ⟨"owner1", "olive", []⟩ c8Task rfl).2 (Or.inr rfl)⟩

theorem completedData_cache_hit (cfg : MinioConfig) (env : ImgEnv) (odir : String)
    (store : ResultStore) (rp : String) (mf : MdFile) (c : String)
    (hde : store.dirExists = true) (hmd : chooseMd store.mdFiles = some mf)
    (hrr : store.readRaises = false) (hc : store.cacheAt mf.parent = some c) :
    completedData cfg env odir store rp true "markdown"
      = (some { json_available := ¬(store.jsonFiles.filter jsonFilter).isEmpty,
                markdown_file := some "result_minio.md", content := some c,
                images_uploaded := some true, from_cache := some true }, store) := by
  unfold completedData
  rw [hmd]
  simp only [hde, hrr, Bool.true_eq_false, if_false, Bool.false_eq_true]
  unfold markdownPart jsonPart
  simp [hc]

theorem completedData_cache_miss (cfg : MinioConfig) (env : ImgEnv) (odir : String)
    (store : ResultStore) (rp : String) (mf : MdFile)
    (hde : store.dirExists = true) (hmd : chooseMd store.mdFiles = some mf)
    (hrr : store.readRaises = false) (hc : store.cacheAt mf.parent = none)
    (hie : store.imagesDirExists mf.parent = true) (hcw : store.cacheWriteOk = true) :
    completedData cfg env odir store rp true "markdown"
      = (some { json_available := ¬(store.jsonFiles.filter jsonFilter).isEmpty,
                markdown_file := some mf.name,
                content := some (process_markdown_images cfg env odir mf.content
                    (mf.parent ++ "/images") rp true).1,
                images_uploaded := some true,
                has_images := none,
                from_cache := some false },
         { store with
            cacheAt := fun p =>
              if p = mf.parent then
                some (process_markdown_images cfg env odir mf.content
                    (mf.parent ++ "/images") rp true).1
              else store.cacheAt p }) := by
  unfold completedData
  rw [hmd]
  simp only [hde, hrr, Bool.true_eq_false, if_false, Bool.false_eq_true]
  unfold markdownPart jsonPart
  simp [hc, hie, hcw, hde, hrr]

/-- The Markdown content carried by a task-status response, if any. -/
def respContent : Except HTTPEx TaskResponse → Option String
  | .ok resp => resp.data.bind (fun d => d.content)
  | .error _ => none

/-- The `from_cache` flag carried by a task-status response, if any. -/
def respFromCache : Except HTTPEx TaskResponse → Option Bool
  | .ok resp => resp.data.bind (fun d => d.from_cache)
  | .error _ => none

/-- C4: for a completed task queried with `upload_images=true` and
    `format=markdown`, (a) when the sibling cache `result_minio.md` exists
    its bytes are returned as-is with `from_cache=true` and the store is
    left untouched; (b) hence a second such request, run on the store state
    the first one produced, returns content identical to the first and
    serves it from the cache. -/
theorem c4_minio_cache (cfg : MinioConfig) (env : ImgEnv) (odir : String)
    (db : String → Option Task) (store : ResultStore) (tid rp : String)
    (user : User) (task : Task) (mf : MdFile)
    (hdb : db tid = some task)
    (hauth : user.has_permission .TASK_VIEW_ALL = true ∨ task.user_id = some user.user_id)
    (hst : task.status = "completed") (hrp : task.result_path = some rp)
    (hde : store.dirExists = true) (hmd : chooseMd store.mdFiles = some mf)
    (hrr : store.readRaises = false) :
    (∀ c, store.cacheAt mf.parent = some c →
      respContent (get_task_status cfg env odir db store tid true "markdown" user).1 = some c
      ∧ respFromCache (get_task_status cfg env odir db store tid true "markdown" user).1
          = some true
      ∧ (get_task_status cfg env odir db store tid true "markdown" user).2 = store)
    ∧ (store.cacheAt mf.parent = none → store.imagesDirExists mf.parent = true →
        store.cacheWriteOk = true →
      respContent (get_task_status cfg env odir db
          (get_task_status cfg env odir db store tid true "markdown" user).2
          tid true "markdown" user).1
        = respContent (get_task_status cfg env odir db store tid true "markdown" user).1
      ∧ respFromCache (get_task_status cfg env odir db
          (get_task_status cfg env odir db store tid true "markdown" user).2
          tid true "markdown" user).1 = some true
      ∧ (respContent
          (get_task_status cfg env odir db store tid true "markdown" user).1).isSome
          = true) := by
  have hcond : ¬(user.has_permission .TASK_VIEW_ALL = false ∧
      task.user_id ≠ some user.user_id) := by
    rcases hauth with h | h
    · simp [h]
    · simp [h]
  constructor
  · intro c hc
    unfold get_task_status
    simp only [hdb, if_neg hcond, hst, hrp,
      completedData_cache_hit cfg env odir store rp mf c hde hmd hrr hc]
    exact ⟨rfl, rfl, rfl⟩
  · intro hc hie hcw
    have h1 := completedData_cache_miss cfg env odir store rp mf hde hmd hrr hc hie hcw
    have hc1 : ({ store with
        cacheAt := fun p =>
          if p = mf.parent then
            some (process_markdown_images cfg env odir mf.content
                (mf.parent ++ "/images") rp true).1
          else store.cacheAt p } : ResultStore).cacheAt mf.parent
        = some (process_markdown_images cfg env odir mf.content
            (mf.parent ++ "/images") rp true).1 := by simp
    have h2 := completedData_cache_hit cfg env odir
      { store with
        cacheAt := fun p =>
          if p = mf.parent then
            some (process_markdown_images cfg env odir mf.content
                (mf.parent ++ "/images") rp true).1
          else store.cacheAt p }
      rp mf
      (process_markdown_images cfg env odir mf.content
          (mf.parent ++ "/images") rp true).1
      hde hmd hrr hc1
    unfold get_task_status
    simp only [hdb, if_neg hcond, hst, hrp, if_true, h1, h2]
    exact ⟨rfl, rfl, rfl⟩

def c4Store : ResultStore :=
  { dirExists := true,
    mdFiles := [{ parent := "/app/output/t1", name := "result.md", content := "hello" }],
    jsonFiles := [], imagesDirExists := fun _ => true, cacheAt := fun _ => none,
    cacheWriteOk := true, readRaises := false }

def c4StoreCached : ResultStore :=
  { dirExists := true,
    mdFiles := [{ parent := "/app/output/t1", name := "result.md", content := "hello" }],
    jsonFiles := [], imagesDirExists := fun _ => true, cacheAt := fun _ => some "CACHED",
    cacheWriteOk := true, readRaises := false }

def c4Task : Task :=
  { status := "completed", file_name := "a.pdf",
    file_path := "/app/uploads/u1_a.pdf", backend := "auto", priority := 0,
    error_message := none, created_at := some "2026-01-01",
    started_at := some "2026-01-01", completed_at := some "2026-01-02",
    worker_id := some "w0", retry_count := 0, user_id := some "u1",
    result_path := some "/app/output/t1" }

def c4Db : String → Option Task := fun i => if i = "t1" then some c4Task else none

def c4Mf : MdFile := { parent := "/app/output/t1", name := "result.md", content := "hello" }

def c4User : User := ⟨"u1", "alice", []⟩

/-- C4 witness: the cache behaviour at concrete inputs — a pre-seeded
    `result_minio.md` is returned verbatim with the store untouched, and on
    a cache-less store the second of two back-to-back requests returns the
    first one's content from the cache. -/
theorem c4_minio_cache_witness :
    (respContent (get_task_status c3Cfg c3EnvAll "/app/output" c4Db c4StoreCached
          "t1" true "markdown" c4User).1 = some "CACHED"
      ∧ respFromCache (get_task_status c3Cfg c3EnvAll "/app/output" c4Db c4StoreCached
          "t1" true "markdown" c4User).1 = some true
      ∧ (get_task_status c3Cfg c3EnvAll "/app/output" c4Db c4StoreCached
          "t1" true "markdown" c4User).2 = c4StoreCached)
    ∧ (respContent (get_task_status c3Cfg c3EnvAll "/app/output" c4Db
          (get_task_status c3Cfg c3EnvAll "/app/output" c4Db c4Store
            "t1" true "markdown" c4User).2
          "t1" true "markdown" c4User).1
        = respContent (get_task_status c3Cfg c3EnvAll "/app/output" c4Db c4Store
            "t1" true "markdown" c4User).1
      ∧ respFromCache (get_task_status c3Cfg c3EnvAll "/app/output" c4Db
          (get_task_status c3Cfg c3EnvAll "/app/output" c4Db c4Store
            "t1" true "markdown" c4User).2
          "t1" true "markdown" c4User).1 = some true
      ∧ (respContent (get_task_status c3Cfg c3EnvAll "/app/output" c4Db c4Store
          "t1" true "markdown" c4User).1).isSome = true) :=
  ⟨(c4_minio_cache c3Cfg c3EnvAll "/app/output" c4Db c4StoreCached "t1" "/app/output/t1"
      c4User c4Task c4Mf rfl (Or.inr rfl) rfl rfl rfl rfl rfl).1 "CACHED" rfl,
   (c4_minio_cache c3Cfg c3EnvAll "/app/output" c4Db c4Store "t1" "/app/output/t1"
      c4User c4Task c4Mf rfl (Or.inr rfl) rfl rfl rfl rfl rfl).2 rfl rfl rfl⟩

end MT
